import Mathlib

/-!
# Healyum bot — market lifecycle and settlement engine, shallow embedding

The repository is a Telegram prediction-market bot over a Supabase store.
It consists of four near-duplicate evolutions of one service:

* `Part001` — `src/unnamed/part_001` (earliest: UTC period ids, no resolve
  guards at all);
* `Part000` — `src/unnamed/part_000` (adds the already-resolved guard, the
  empty-bets branch, and the `winnersPool === 0` guard);
* `IndexA`  — first half of `src/index.js` (Rome-civil-date period ids, the
  active-market based resolver with a `winnersPool <= 0` guard, the
  `/cron/daily` roll handler);
* `IndexB`  — second half of `src/index.js` (Rome period ids via `Intl`,
  `getOrCreateTodayOpenMarket` which re-opens a non-OPEN market,
  `hardLockYesterdayMarket`, a resolver with a ternary zero-pool guard and
  no already-resolved guard).

Monetary amounts (`stake`, pools, payouts, the fee) are embedded as `ℚ`;
the JavaScript source computes with IEEE doubles, and the one place where
that difference is observable (division by a zero winners pool in
`Part001.resolveTodayMarket`, which yields `Infinity`/`NaN` in JS and `0`
in `ℚ`) is flagged at the definition and only the *presence* of the
resulting write, never its numeric value, is asserted there.

Database effects are embedded as explicit state: a resolver receives the
fetched market row and the list of bet rows for it and returns the updated
rows together with the list of payout UPDATE statements it issued
(`(bet id, amount)` pairs); the intake handler receives the fetched market
and bets and returns the updated market, the updated bet list and the
reply sent to the user.  Timestamps are abstract `Nat` instants.
-/

namespace Healyum

/-- Bet side, the `side` column: the strings `"UP"` / `"DOWN"` in the source. -/
inductive Side where
  | UP
  | DOWN
deriving DecidableEq, Repr

/-- Market status, the `status` column: `"OPEN"`, `"LOCKED"`, `"RESOLVED"`. -/
inductive Status where
  | OPEN
  | LOCKED
  | RESOLVED
deriving DecidableEq, Repr

/-- A row of the `markets` table.  `date` is the period date string,
timestamps are abstract instants, prices are optional reference prices. -/
structure Market where
  id : String
  underlying : String
  date : String
  status : Status
  up_pool : ℚ
  down_pool : ℚ
  opened_at : Option Nat := none
  locked_at : Option Nat := none
  resolved_at : Option Nat := none
  open_price : Option ℚ := none
  last_price : Option ℚ := none
deriving DecidableEq, Repr

/-- A row of the `bets` table. -/
structure Bet where
  id : Nat
  user_id : Nat
  market_id : String
  side : Side
  stake : ℚ
  payout : Option ℚ := none
deriving DecidableEq, Repr

/-- `const FEE = 0.02;` — identical in all four evolutions. -/
def FEE : ℚ := 2 / 100

/-- The structured payload delivered by the mini-app through
`msg.web_app_data.data`: `{type, side, stake}`.  `side` and `stake` may be
absent (`none`). -/
structure BetPayload where
  type : String
  side : Option String := none
  stake : Option ℚ := none
deriving DecidableEq, Repr

/-- `const side = rawSide === "TESLA_UP" ? "UP" : "DOWN";` — identical in
all four evolutions: anything other than the exact string `"TESLA_UP"`
(including a missing side) becomes `DOWN`. -/
def sideOf (raw : Option String) : Side :=
  if raw = some "TESLA_UP" then Side.UP else Side.DOWN

/-- `const stake = Number(payload.stake || 1);` — identical in all four
evolutions.  A missing stake is falsy, and so is a numeric `0`; both
default to `1`.  Any other number, negative ones included, is kept. -/
def coerceStake (s : Option ℚ) : ℚ :=
  match s with
  | none => 1
  | some q => if q = 0 then 1 else q

/-- The reply `handleWebAppData` sends back to the chat. -/
inductive IntakeReply where
  | ignored
  | rejectedNotOpen
  | acceptedBet (side : Side) (stake : ℚ)
deriving DecidableEq, Repr

/-- Post-state of one `handleWebAppData` call: the market row, the bet
rows for it, and the reply. -/
structure IntakeOutcome where
  market : Market
  bets : List Bet
  reply : IntakeReply
deriving DecidableEq, Repr

/-- `handleWebAppData` — the bet-intake handler, whose body is identical
in all four evolutions (`IndexA` additionally wraps the pools in
`Number(...) || 0`, which is the identity on rational pool values):
ignore non-`BET` payloads; map the raw side and coerce the stake; reject
with a "not open" message if the fetched market's status is not `OPEN`;
otherwise insert the bet row and write back the incremented pools.
`bid` is the id the store assigns to the inserted row and `uid` the
upserted user id. -/
def handleWebAppData (p : BetPayload) (m : Market) (bets : List Bet)
    (bid uid : Nat) : IntakeOutcome :=
  if p.type ≠ "BET" then ⟨m, bets, IntakeReply.ignored⟩
  else
    let side := sideOf p.side
    let stake := coerceStake p.stake
    if m.status ≠ Status.OPEN then ⟨m, bets, IntakeReply.rejectedNotOpen⟩
    else
      let newUpPool := m.up_pool + (if side = Side.UP then stake else 0)
      let newDownPool := m.down_pool + (if side = Side.DOWN then stake else 0)
      ⟨{ m with up_pool := newUpPool, down_pool := newDownPool },
        bets ++ [⟨bid, uid, m.id, side, stake, none⟩],
        IntakeReply.acceptedBet side stake⟩

/-- Runs a sequence of web-app payloads through `handleWebAppData`,
threading the market row and bet list; the store assigns consecutive ids. -/
def runIntakes (m : Market) (bets : List Bet) (uid : Nat) :
    List BetPayload → Market × List Bet
  | [] => (m, bets)
  | p :: ps =>
    let o := handleWebAppData p m bets bets.length uid
    runIntakes o.market o.bets uid ps

/-- Sum of the recorded stakes on one side of a bet list. -/
def sumSide (s : Side) (bets : List Bet) : ℚ :=
  ((bets.filter fun b => b.side = s).map Bet.stake).sum

/-- `winnersPool = winningSide === "UP" ? upPool : downPool` — the same
expression in all four resolvers. -/
def winnersPool (m : Market) (ws : Side) : ℚ :=
  if ws = Side.UP then m.up_pool else m.down_pool

/-- Result of a resolver run: the translated effect of the Supabase
UPDATE statements it issued. -/
inductive ResolveResult where
  /-- No market row was found ("No market found" / "No active market"). -/
  | noMarket
  /-- `part_000` only: "Market ... already resolved.", nothing written. -/
  | alreadyResolved (id : String)
  /-- The market row written back, the bet rows after the payout
  updates, and the list of payout UPDATEs issued as `(bet id, amount)`. -/
  | settled (market : Market) (bets : List Bet) (payoutWrites : List (Nat × ℚ))
deriving DecidableEq, Repr

/-- Payout writes of a resolver run (empty when nothing was settled). -/
def ResolveResult.writes : ResolveResult → List (Nat × ℚ)
  | .settled _ _ w => w
  | _ => []

/-- Status of the market row after a resolver run, when one was written. -/
def ResolveResult.statusAfter : ResolveResult → Option Status
  | .settled m _ _ => some m.status
  | _ => none

namespace Part001

/-- `src/unnamed/part_001`, `resolveTodayMarket` (lines 188–230): fetches
today's market and its bets, then — with **no** already-resolved guard and
**no** zero-winners guard — computes
`multiplier = totalPool * (1 - FEE) / winnersPool` and writes
`payout = bet.stake * multiplier` for every bet on the winning side,
finally setting the market `RESOLVED` with `resolved_at = now`.
In JS a zero `winnersPool` makes `multiplier` `Infinity` (and a
zero-stake winner's payout `NaN`); in this `ℚ` embedding division by zero
yields `0`, so theorems about that corner only assert *that* a payout
write happens, never its value.  The source does not guard a missing
market row (it would throw), so the row is taken as given here. -/
def resolveTodayMarket (m : Market) (bets : List Bet) (ws : Side)
    (now : Nat) : Market × List Bet × List (Nat × ℚ) :=
  let totalPool := m.up_pool + m.down_pool
  let wp := winnersPool m ws
  let distributable := totalPool * (1 - FEE)
  let multiplier := distributable / wp
  let newBets := bets.map fun b =>
    if b.side = ws then { b with payout := some (b.stake * multiplier) } else b
  let payoutWrites := (bets.filter fun b => b.side = ws).map fun b =>
    (b.id, b.stake * multiplier)
  ({ m with status := Status.RESOLVED, resolved_at := some now },
    newBets, payoutWrites)

end Part001

namespace Part000

/-- `src/unnamed/part_000`, `resolveTodayMarket` (lines 194–265): returns
"No market found" when the row is missing; returns
"Market ... already resolved." when `status === 'RESOLVED'` (nothing
written); when there are no bets, or when `winnersPool === 0`, only sets
`status = 'RESOLVED'` (note: those two branches do not write
`resolved_at`); otherwise writes `payout = stake * multiplier` for the
winning side and sets `RESOLVED` with `resolved_at = now`.  The `=== 0`
guard does not catch a negative winners pool. -/
def resolveTodayMarket (fetched : Option Market) (bets : List Bet)
    (ws : Side) (now : Nat) : ResolveResult :=
  match fetched with
  | none => ResolveResult.noMarket
  | some m =>
    if m.status = Status.RESOLVED then ResolveResult.alreadyResolved m.id
    else if bets = [] then
      ResolveResult.settled { m with status := Status.RESOLVED } bets []
    else
      let totalPool := m.up_pool + m.down_pool
      let wp := winnersPool m ws
      if wp = 0 then
        ResolveResult.settled { m with status := Status.RESOLVED } bets []
      else
        let distributable := totalPool * (1 - FEE)
        let multiplier := distributable / wp
        let newBets := bets.map fun b =>
          if b.side = ws then { b with payout := some (b.stake * multiplier) }
          else b
        let payoutWrites := (bets.filter fun b => b.side = ws).map fun b =>
          (b.id, b.stake * multiplier)
        ResolveResult.settled
          { m with status := Status.RESOLVED, resolved_at := some now }
          newBets payoutWrites

end Part000

namespace IndexA

/-- `src/index.js`, first evolution, `resolveTodayMarket`
(lines 392–443): resolves the *active* market (the most recent `OPEN`
one, passed here as the fetched row; "No active market." when there is
none).  If `!winnersPool || winnersPool <= 0` it only sets `RESOLVED`
with `resolved_at = now` and pays nothing; otherwise it writes
`payout = bet.stake * multiplier` for every winning-side bet and then
sets `RESOLVED` with `resolved_at = now`. -/
def resolveTodayMarket (active : Option Market) (bets : List Bet)
    (ws : Side) (now : Nat) : ResolveResult :=
  match active with
  | none => ResolveResult.noMarket
  | some m =>
    let totalPool := m.up_pool + m.down_pool
    let wp := winnersPool m ws
    if wp ≤ 0 then
      ResolveResult.settled
        { m with status := Status.RESOLVED, resolved_at := some now } bets []
    else
      let distributable := totalPool * (1 - FEE)
      let multiplier := distributable / wp
      let newBets := bets.map fun b =>
        if b.side = ws then { b with payout := some (b.stake * multiplier) }
        else b
      let payoutWrites := (bets.filter fun b => b.side = ws).map fun b =>
        (b.id, b.stake * multiplier)
      ResolveResult.settled
        { m with status := Status.RESOLVED, resolved_at := some now }
        newBets payoutWrites

/-- Report returned by the `/cron/daily` handler of the first evolution. -/
structure CronReport where
  lockedYesterday : Bool
  createdToday : Bool
deriving DecidableEq, Repr

/-- The market row inserted for today by `/cron/daily` (first evolution):
`OPEN`, zero pools, `opened_at = now`, both prices set to the fetched
open price. -/
def freshTodayMarket (todayId todayDate : String) (now : Nat)
    (openPrice : Option ℚ) : Market :=
  { id := todayId, underlying := "TSLA", date := todayDate,
    status := Status.OPEN, up_pool := 0, down_pool := 0,
    opened_at := some now, locked_at := none, resolved_at := none,
    open_price := openPrice, last_price := openPrice }

/-- `src/index.js`, first evolution, the `/cron/daily` handler
(lines 446–532), after the secret check: fetch yesterday's market row;
if it exists and is `OPEN`, set it `LOCKED` with `locked_at = now`
(otherwise leave the row untouched); fetch today's row and, only if it
is absent, insert a fresh `OPEN` market with zero pools.  Returns the
updated rows and the `{lockedYesterday, createdToday}` report. -/
def cronDaily (yesterday today : Option Market) (todayId todayDate : String)
    (now : Nat) (openPrice : Option ℚ) :
    Option Market × Option Market × CronReport :=
  let lockStep : Option Market × Bool :=
    match yesterday with
    | some m =>
      if m.status = Status.OPEN then
        (some { m with status := Status.LOCKED, locked_at := some now }, true)
      else (some m, false)
    | none => (none, false)
  let createStep : Option Market × Bool :=
    match today with
    | some m => (some m, false)
    | none => (some (freshTodayMarket todayId todayDate now openPrice), true)
  (lockStep.1, createStep.1, ⟨lockStep.2, createStep.2⟩)

end IndexA

namespace IndexB

/-- `src/index.js`, second evolution, `createOpenMarketForToday`
(lines 733–754): inserts today's market `OPEN` with zero pools and
`opened_at = now` (no price fields). -/
def createOpenMarketForToday (todayId dateStr : String) (now : Nat) : Market :=
  { id := todayId, underlying := "TSLA", date := dateStr,
    status := Status.OPEN, up_pool := 0, down_pool := 0,
    opened_at := some now, locked_at := none, resolved_at := none,
    open_price := none, last_price := none }

/-- `src/index.js`, second evolution, `getOrCreateTodayOpenMarket`
(lines 758–782): if today's row is missing, create it `OPEN`; if it
exists with `status !== "OPEN"` it is **re-opened** — the log reads
"Market oggi esiste ma non è OPEN, lo riapro" — by writing
`status = "OPEN"` and `opened_at = market.opened_at || now`. -/
def getOrCreateTodayOpenMarket (fetched : Option Market)
    (todayId dateStr : String) (now : Nat) : Market :=
  match fetched with
  | none => createOpenMarketForToday todayId dateStr now
  | some m =>
    if m.status ≠ Status.OPEN then
      { m with status := Status.OPEN, opened_at := some (m.opened_at.getD now) }
    else m

/-- Report of `hardLockYesterdayMarket`. -/
inductive LockReport where
  | noMarket
  | notOpen (status : Status)
  | locked (id : String)
deriving DecidableEq, Repr

/-- `src/index.js`, second evolution, `hardLockYesterdayMarket`
(lines 785–815): nothing to do when yesterday's row is missing; if its
status is not `OPEN` the row is left untouched (`{locked: false,
reason: "not_open"}`); otherwise it is set `LOCKED` with
`locked_at = now`. -/
def hardLockYesterdayMarket (fetched : Option Market) (now : Nat) :
    Option Market × LockReport :=
  match fetched with
  | none => (none, LockReport.noMarket)
  | some m =>
    if m.status ≠ Status.OPEN then (some m, LockReport.notOpen m.status)
    else
      (some { m with status := Status.LOCKED, locked_at := some now },
        LockReport.locked m.id)

/-- `src/index.js`, second evolution, `resolveTodayMarket`
(lines 939–991): "No market for today" when the row is missing; **no**
already-resolved guard; `multiplier = winnersPool > 0 ? distributable /
winnersPool : 0`, and the payout loop writes only when
`bet.side === winningSide && winnersPool > 0`; finally `RESOLVED` with
`resolved_at = now`. -/
def resolveTodayMarket (fetched : Option Market) (bets : List Bet)
    (ws : Side) (now : Nat) : ResolveResult :=
  match fetched with
  | none => ResolveResult.noMarket
  | some m =>
    let totalPool := m.up_pool + m.down_pool
    let wp := winnersPool m ws
    let distributable := totalPool * (1 - FEE)
    let multiplier := if wp > 0 then distributable / wp else 0
    let newBets := bets.map fun b =>
      if b.side = ws ∧ wp > 0
      then { b with payout := some (b.stake * multiplier) } else b
    let payoutWrites := (bets.filter fun b => b.side = ws ∧ wp > 0).map fun b =>
      (b.id, b.stake * multiplier)
    ResolveResult.settled
      { m with status := Status.RESOLVED, resolved_at := some now }
      newBets payoutWrites

end IndexB

/-! ### Period resolution

The instant-to-civil-time conversions are performed in the source by the
JavaScript runtime (`toLocaleString` with a time zone, `toISOString`);
the embedding takes the resulting civil wall-clock reading as input and
models the formatting and date selection the source performs on it. -/

/-- A civil wall-clock reading: calendar date plus time of day. -/
structure CivilTime where
  year : Nat
  month : Nat
  day : Nat
  hour : Nat
  minute : Nat
deriving DecidableEq, Repr

/-- `String(n).padStart(2, "0")` on month and day numbers. -/
def pad2 (n : Nat) : String :=
  if n < 10 then "0" ++ toString n else toString n

/-- The "YYYY-MM-DD" assembly used by every period-id function. -/
def ymd (year month day : Nat) : String :=
  toString year ++ "-" ++ pad2 month ++ "-" ++ pad2 day

namespace IndexA

/-- `src/index.js`, first evolution, `getRomeDateStr` (lines 58–64):
formats "YYYY-MM-DD" from the civil date of the instant in Europe/Rome
(`getRomeNow` converts the instant with
`toLocaleString("en-US", {timeZone: "Europe/Rome"})`; that zone-aware
conversion is this function's input).  Only the year, month and day are
read: the Rome time of day plays no part, and no cutover hour exists
anywhere in the source. -/
def getRomeDateStr (romeNow : CivilTime) : String :=
  ymd romeNow.year romeNow.month romeNow.day

/-- `src/index.js`, first evolution, `getMarketIdForRomeDate`
(lines 69–72): the market id is `"TSLA-" + dateStr`. -/
def getMarketIdForRomeDate (romeNow : CivilTime) : String :=
  "TSLA-" ++ getRomeDateStr romeNow

end IndexA

namespace Part001

/-- `src/unnamed/part_001`, `getTodayMarketId` (lines 34–37, identical in
`part_000`): `new Date().toISOString().slice(0, 10)` — the **UTC** civil
date of the instant, not a Rome-zone date — prefixed with `"TSLA-"`. -/
def getTodayMarketId (utcNow : CivilTime) : String :=
  "TSLA-" ++ ymd utcNow.year utcNow.month utcNow.day

end Part001

/-! ### Concrete fixtures used by witnesses and counterexamples -/

/-- An open market for 2025-11-14 with empty pools. -/
def mktOpenZero : Market :=
  { id := "TSLA-2025-11-14", underlying := "TSLA", date := "2025-11-14",
    status := Status.OPEN, up_pool := 0, down_pool := 0, opened_at := some 1 }

/-- Open market with `up_pool = 70`, `down_pool = 30`. -/
def mkt7030 : Market := { mktOpenZero with up_pool := 70, down_pool := 30 }

/-- Open market with `up_pool = 0`, `down_pool = 50`. -/
def mkt0d50 : Market := { mktOpenZero with down_pool := 50 }

/-- A locked market. -/
def mktLocked : Market :=
  { mktOpenZero with status := Status.LOCKED, locked_at := some 2 }

/-- An already-resolved market with pools 70/30. -/
def mktResolved7030 : Market :=
  { mkt7030 with status := Status.RESOLVED, resolved_at := some 5 }

/-- A stake of 10 on UP. -/
def betUp10 : Bet :=
  { id := 1, user_id := 7, market_id := "TSLA-2025-11-14",
    side := Side.UP, stake := 10 }

/-- The same winning bet after its payout of 14 was written. -/
def betUp10Paid : Bet := { betUp10 with payout := some 14 }

/-- A stake of 50 on DOWN. -/
def betDown50 : Bet :=
  { id := 2, user_id := 8, market_id := "TSLA-2025-11-14",
    side := Side.DOWN, stake := 50 }

/-- A negative-amount bet on UP (reachable: the intake performs no amount
validation, so a payload stake of `-5` is recorded as-is and decrements
the UP pool). -/
def betUpNeg5 : Bet := { betUp10 with stake := -5 }

/-- The market state after `betUpNeg5` was the only accepted stake on UP
and `betDown50` the only one on DOWN: `up_pool = -5`, `down_pool = 50`. -/
def mktNeg5d50 : Market := { mktOpenZero with up_pool := -5, down_pool := 50 }

/-! ## Helper lemmas -/

theorem sumSide_nil (s : Side) : sumSide s [] = 0 := rfl

theorem sumSide_cons (s : Side) (b : Bet) (bs : List Bet) :
    sumSide s (b :: bs) = (if b.side = s then b.stake else 0) + sumSide s bs := by
  by_cases h : b.side = s <;> simp [sumSide, List.filter_cons, h]

theorem sumSide_append_single (s : Side) (bets : List Bet) (b : Bet) :
    sumSide s (bets ++ [b])
      = sumSide s bets + (if b.side = s then b.stake else 0) := by
  by_cases h : b.side = s <;>
    simp [sumSide, List.filter_append, List.filter_cons, h]

theorem sumSide_up_add_down (bets : List Bet) :
    sumSide Side.UP bets + sumSide Side.DOWN bets = (bets.map Bet.stake).sum := by
  induction bets with
  | nil => simp [sumSide]
  | cons b bs ih =>
    rw [sumSide_cons, sumSide_cons, List.map_cons, List.sum_cons, ← ih]
    cases hb : b.side <;> simp <;> ring

theorem handleWebAppData_pools (p : BetPayload) (m : Market) (bets : List Bet)
    (bid uid : Nat)
    (hu : m.up_pool = sumSide Side.UP bets)
    (hd : m.down_pool = sumSide Side.DOWN bets) :
    (handleWebAppData p m bets bid uid).market.up_pool
        = sumSide Side.UP (handleWebAppData p m bets bid uid).bets
  ∧ (handleWebAppData p m bets bid uid).market.down_pool
        = sumSide Side.DOWN (handleWebAppData p m bets bid uid).bets := by
  unfold handleWebAppData
  split
  · exact ⟨hu, hd⟩
  · split
    · exact ⟨hu, hd⟩
    · refine ⟨?_, ?_⟩ <;> simp [sumSide_append_single, hu, hd]

theorem runIntakes_pools (uid : Nat) (ps : List BetPayload) :
    ∀ (m : Market) (bets : List Bet),
      m.up_pool = sumSide Side.UP bets →
      m.down_pool = sumSide Side.DOWN bets →
      (runIntakes m bets uid ps).1.up_pool
          = sumSide Side.UP (runIntakes m bets uid ps).2
    ∧ (runIntakes m bets uid ps).1.down_pool
          = sumSide Side.DOWN (runIntakes m bets uid ps).2 := by
  induction ps with
  | nil => exact fun m bets hu hd => ⟨hu, hd⟩
  | cons p ps ih =>
    intro m bets hu hd
    have h := handleWebAppData_pools p m bets bets.length uid hu hd
    simpa [runIntakes] using ih _ _ h.1 h.2

theorem map_payout_id_of_no_winner (x : ℚ) (ws : Side) (bets : List Bet)
    (h : ∀ b ∈ bets, b.side ≠ ws) :
    (bets.map fun b =>
      if b.side = ws then { b with payout := some (b.stake * x) } else b)
      = bets := by
  induction bets with
  | nil => rfl
  | cons b bs ih =>
    simp only [List.map_cons]
    rw [if_neg (h b (List.mem_cons_self b bs)),
      ih fun c hc => h c (List.mem_cons_of_mem b hc)]

theorem filter_side_eq_nil (ws : Side) (bets : List Bet)
    (h : ∀ b ∈ bets, b.side ≠ ws) :
    (bets.filter fun b => b.side = ws) = [] := by
  induction bets with
  | nil => rfl
  | cons b bs ih =>
    rw [List.filter_cons]
    simp [h b (List.mem_cons_self b bs),
      ih fun c hc => h c (List.mem_cons_of_mem b hc)]

/-! ## Claims -/

/-- C1: for every resolution with a positive winners pool, the settlement
computes `distributable = totalPool * (1 - fee)` with
`totalPool = up_pool + down_pool`, sets
`multiplier = distributable / winnersPool`, and writes
`payout = stake * multiplier` for exactly the stakes whose side equals the
winning side (all other stakes are untouched); the market is written back
`RESOLVED` with `resolved_at = now`. -/
theorem settlement_multiplier_payouts (m : Market) (bets : List Bet)
    (ws : Side) (now : Nat) (h : 0 < winnersPool m ws) :
    IndexA.resolveTodayMarket (some m) bets ws now =
      ResolveResult.settled
        { m with status := Status.RESOLVED, resolved_at := some now }
        (bets.map fun b => if b.side = ws
          then { b with payout := some (b.stake *
            ((m.up_pool + m.down_pool) * (1 - FEE) / winnersPool m ws)) }
          else b)
        ((bets.filter fun b => b.side = ws).map fun b =>
          (b.id, b.stake *
            ((m.up_pool + m.down_pool) * (1 - FEE) / winnersPool m ws))) := by
  simp only [IndexA.resolveTodayMarket]
  rw [if_neg (not_le.mpr h)]

/-- Witness for C1: `up_pool = 70`, `down_pool = 30`, `fee = 0.02`,
resolving UP gives multiplier `98/70 = 1.4`, and the stake of 10 on UP
receives payout exactly 14. -/
theorem settlement_multiplier_payouts_witness :
    0 < winnersPool mkt7030 Side.UP
  ∧ (mkt7030.up_pool + mkt7030.down_pool) * (1 - FEE) / winnersPool mkt7030 Side.UP
      = 7 / 5
  ∧ IndexA.resolveTodayMarket (some mkt7030) [betUp10] Side.UP 9 =
      ResolveResult.settled
        { mkt7030 with status := Status.RESOLVED, resolved_at := some 9 }
        [{ betUp10 with payout := some 14 }] [(1, 14)] := by
  have hw : 0 < winnersPool mkt7030 Side.UP := by
    norm_num [winnersPool, mkt7030, mktOpenZero]
  refine ⟨hw, by norm_num [winnersPool, FEE, mkt7030, mktOpenZero], ?_⟩
  rw [settlement_multiplier_payouts mkt7030 [betUp10] Side.UP 9 hw]
  norm_num [winnersPool, FEE, mkt7030, mktOpenZero, betUp10]

/-- C2: starting from a market with zero pools, after any sequence of
web-app stake intakes the accepted stakes are exactly the recorded bet
rows, `up_pool` is the sum of the accepted UP stakes, `down_pool` the sum
of the accepted DOWN stakes, and `up_pool + down_pool` is the sum of all
accepted stake amounts. -/
theorem placeStake_pool_conservation (m : Market) (uid : Nat)
    (ps : List BetPayload) (hopen : m.status = Status.OPEN)
    (hu : m.up_pool = 0) (hd : m.down_pool = 0) :
    (runIntakes m [] uid ps).1.up_pool
        = sumSide Side.UP (runIntakes m [] uid ps).2
  ∧ (runIntakes m [] uid ps).1.down_pool
        = sumSide Side.DOWN (runIntakes m [] uid ps).2
  ∧ (runIntakes m [] uid ps).1.up_pool + (runIntakes m [] uid ps).1.down_pool
        = ((runIntakes m [] uid ps).2.map Bet.stake).sum := by
  have h := runIntakes_pools uid ps m []
    (by rw [hu, sumSide_nil]) (by rw [hd, sumSide_nil])
  exact ⟨h.1, h.2, by rw [h.1, h.2, sumSide_up_add_down]⟩

/-- Witness for C2: a concrete run of two accepted intakes (10 on UP,
then 5 on DOWN via an unrecognised raw side) on the zero-pool market. -/
theorem placeStake_pool_conservation_witness :
    mktOpenZero.status = Status.OPEN
  ∧ (runIntakes mktOpenZero [] 7
      [⟨"BET", some "TESLA_UP", some 10⟩, ⟨"BET", some "nope", some 5⟩]).1.up_pool
        = sumSide Side.UP (runIntakes mktOpenZero [] 7
            [⟨"BET", some "TESLA_UP", some 10⟩, ⟨"BET", some "nope", some 5⟩]).2
  ∧ (runIntakes mktOpenZero [] 7
      [⟨"BET", some "TESLA_UP", some 10⟩, ⟨"BET", some "nope", some 5⟩]).1.up_pool
      + (runIntakes mktOpenZero [] 7
          [⟨"BET", some "TESLA_UP", some 10⟩, ⟨"BET", some "nope", some 5⟩]).1.down_pool
        = ((runIntakes mktOpenZero [] 7
            [⟨"BET", some "TESLA_UP", some 10⟩, ⟨"BET", some "nope", some 5⟩]).2.map
              Bet.stake).sum := by
  have h := placeStake_pool_conservation mktOpenZero 7
    [⟨"BET", some "TESLA_UP", some 10⟩, ⟨"BET", some "nope", some 5⟩] rfl rfl rfl
  exact ⟨rfl, h.1, h.2.2⟩

/-- C6: a BET intake against a market whose current status is not OPEN is
rejected (the "market is not open" reply, the spec's
`MarketNotOpenError`): no bet row is appended and neither pool counter —
indeed nothing of the market row — changes. -/
theorem placeStake_not_open_rejected (p : BetPayload) (m : Market)
    (bets : List Bet) (bid uid : Nat)
    (hty : p.type = "BET") (h : m.status ≠ Status.OPEN) :
    handleWebAppData p m bets bid uid = ⟨m, bets, IntakeReply.rejectedNotOpen⟩ := by
  unfold handleWebAppData
  rw [if_neg (by simp [hty]), if_pos h]

/-- Witness for C6: a BET intake of 10 on UP against the LOCKED market is
rejected with the market row and bet ledger unchanged. -/
theorem placeStake_not_open_rejected_witness :
    mktLocked.status ≠ Status.OPEN
  ∧ handleWebAppData ⟨"BET", some "TESLA_UP", some 10⟩ mktLocked [] 0 7
      = ⟨mktLocked, [], IntakeReply.rejectedNotOpen⟩ :=
  ⟨by decide, placeStake_not_open_rejected _ _ _ _ _ rfl (by decide)⟩

/-- C10: the recorded side of an accepted BET intake is UP exactly when
the payload's raw side is the string "TESLA_UP"; every other raw side —
missing, malformed or unrelated — is recorded as DOWN (the bet is still
appended, not rejected). -/
theorem bet_side_mapping (p : BetPayload) (m : Market) (bets : List Bet)
    (bid uid : Nat) (hty : p.type = "BET") (hopen : m.status = Status.OPEN) :
    (handleWebAppData p m bets bid uid).bets
        = bets ++ [⟨bid, uid, m.id, sideOf p.side, coerceStake p.stake, none⟩]
  ∧ (sideOf p.side = Side.UP ↔ p.side = some "TESLA_UP")
  ∧ ∀ raw : Option String, raw ≠ some "TESLA_UP" → sideOf raw = Side.DOWN := by
  refine ⟨?_, ?_, ?_⟩
  · unfold handleWebAppData
    rw [if_neg (by simp [hty]), if_neg (by simp [hopen])]
  · by_cases h : p.side = some "TESLA_UP" <;> simp [sideOf, h]
  · intro raw hr
    unfold sideOf
    rw [if_neg hr]

/-- Witness for C10: a BET with the unrelated raw side "GARBAGE" is
silently recorded as a DOWN stake on the open market. -/
theorem bet_side_mapping_witness :
    (handleWebAppData ⟨"BET", some "GARBAGE", some 3⟩ mktOpenZero [] 0 7).bets
        = [⟨0, 7, "TSLA-2025-11-14", Side.DOWN, 3, none⟩]
  ∧ sideOf (some "GARBAGE") = Side.DOWN := by
  have h := bet_side_mapping ⟨"BET", some "GARBAGE", some 3⟩ mktOpenZero [] 0 7
    rfl rfl
  refine ⟨?_, h.2.2 (some "GARBAGE") (by decide)⟩
  rw [h.1]
  simp [sideOf, coerceStake, mktOpenZero]

/-- Counterexample to C7: the intake performs no amount validation at
all — a BET with amount `-5` on the open zero-pool market is accepted:
the bet row is appended with stake `-5` and the DOWN pool becomes `-5`,
instead of failing with `InvalidStakeError`. -/
theorem negative_stake_accepted :
    handleWebAppData ⟨"BET", some "TESLA_DOWN", some (-5)⟩ mktOpenZero [] 1 7
      = ⟨{ mktOpenZero with up_pool := 0, down_pool := -5 },
          [⟨1, 7, "TSLA-2025-11-14", Side.DOWN, -5, none⟩],
          IntakeReply.acceptedBet Side.DOWN (-5)⟩ := by
  norm_num [handleWebAppData, sideOf, coerceStake, mktOpenZero]
  decide

/-- C7 as amended: no `InvalidStakeError` exists.  On an OPEN market a
BET payload with any nonzero amount `q` — negative amounts included — is
accepted: the bet row is appended with stake `q` and the total pool
changes by `q`; a missing or numerically-zero payload stake is silently
replaced by `1` (the `|| 1` default) and then accepted. -/
theorem stake_amount_unvalidated (m : Market) (bets : List Bet)
    (bid uid : Nat) (rawSide : Option String) (q : ℚ)
    (hopen : m.status = Status.OPEN) (hq : q ≠ 0) :
    (handleWebAppData ⟨"BET", rawSide, some q⟩ m bets bid uid).reply
        = IntakeReply.acceptedBet (sideOf rawSide) q
  ∧ (handleWebAppData ⟨"BET", rawSide, some q⟩ m bets bid uid).bets
        = bets ++ [⟨bid, uid, m.id, sideOf rawSide, q, none⟩]
  ∧ (handleWebAppData ⟨"BET", rawSide, some q⟩ m bets bid uid).market.up_pool
      + (handleWebAppData ⟨"BET", rawSide, some q⟩ m bets bid uid).market.down_pool
        = m.up_pool + m.down_pool + q
  ∧ coerceStake (some 0) = 1 ∧ coerceStake none = 1 := by
  have hcs : coerceStake (some q) = q := by simp [coerceStake, hq]
  unfold handleWebAppData
  rw [if_neg (by simp), if_neg (by simp [hopen])]
  refine ⟨by rw [hcs], by rw [hcs], ?_, by simp [coerceStake], rfl⟩
  rw [hcs]
  cases h : sideOf rawSide <;> simp [h] <;> ring

/-- Witness for C7's amended statement: an intake of `-3` with a missing
raw side is accepted on the open zero-pool market, recorded as a DOWN
stake of `-3`, and moves the total pool to `-3`. -/
theorem stake_amount_unvalidated_witness :
    mktOpenZero.status = Status.OPEN
  ∧ (handleWebAppData ⟨"BET", none, some (-3)⟩ mktOpenZero [] 0 7).reply
      = IntakeReply.acceptedBet (sideOf none) (-3)
  ∧ (handleWebAppData ⟨"BET", none, some (-3)⟩ mktOpenZero [] 0 7).market.up_pool
      + (handleWebAppData ⟨"BET", none, some (-3)⟩ mktOpenZero [] 0 7).market.down_pool
        = mktOpenZero.up_pool + mktOpenZero.down_pool + (-3) := by
  have h := stake_amount_unvalidated mktOpenZero [] 0 7 none (-3) rfl (by norm_num)
  exact ⟨rfl, h.1, h.2.2.1⟩

/-- C3 (code bug): at the failing input — today's market already
RESOLVED with pools 70/30 whose winning bet (stake 10 on UP) was already
paid 14 — `part_000`'s resolver correctly fails with the already-resolved
reply and writes nothing, but `part_001`'s resolver (which has no guard)
runs the settlement again: it issues a second payout write of 14 to bet 1
and re-notifies the winner, instead of failing. -/
theorem resolve_after_resolved_rewrites_payout :
    mktResolved7030.status = Status.RESOLVED
  ∧ betUp10Paid.payout = some 14
  ∧ Part000.resolveTodayMarket (some mktResolved7030) [betUp10Paid] Side.UP 99
      = ResolveResult.alreadyResolved "TSLA-2025-11-14"
  ∧ (Part001.resolveTodayMarket mktResolved7030 [betUp10Paid] Side.UP 99).2.2
      = [(1, 14)] := by
  refine ⟨rfl, rfl, ?_, ?_⟩
  · simp [Part000.resolveTodayMarket, mktResolved7030, mkt7030, mktOpenZero]
  · norm_num [Part001.resolveTodayMarket, winnersPool, FEE,
      mktResolved7030, mkt7030, mktOpenZero, betUp10Paid, betUp10]

/-- Counterexample to C4: `getOrCreateTodayOpenMarket` in the second
evolution of index.js sets an already-RESOLVED market for the current
period straight back to OPEN — the status machine does move backward out
of RESOLVED. -/
theorem ensureOpen_reopens_resolved :
    mktResolved7030.status = Status.RESOLVED
  ∧ (IndexB.getOrCreateTodayOpenMarket (some mktResolved7030)
      "TSLA-2025-11-14" "2025-11-14" 9).status = Status.OPEN := by
  exact ⟨rfl, rfl⟩

/-- C4 as amended: stake intake never changes a market's status; the
hard-lock step only moves OPEN to LOCKED and leaves any non-OPEN market
untouched; every resolver either fails without writing (part_000 on a
RESOLVED market) or ends at RESOLVED — so those operations only move the
status forward along OPEN → LOCKED → RESOLVED; the one exception is
index.js's second-evolution `getOrCreateTodayOpenMarket`, which re-opens
a LOCKED or RESOLVED current-period market, moving the status backward
out of a terminal state. -/
theorem status_transitions_amended (p : BetPayload) (m : Market)
    (bets : List Bet) (ws : Side) (bid uid now : Nat)
    (todayId dateStr : String) :
    (handleWebAppData p m bets bid uid).market.status = m.status
  ∧ (m.status = Status.OPEN →
      IndexB.hardLockYesterdayMarket (some m) now
        = (some { m with status := Status.LOCKED, locked_at := some now },
            IndexB.LockReport.locked m.id))
  ∧ (m.status ≠ Status.OPEN →
      IndexB.hardLockYesterdayMarket (some m) now
        = (some m, IndexB.LockReport.notOpen m.status))
  ∧ (IndexA.resolveTodayMarket (some m) bets ws now).statusAfter
      = some Status.RESOLVED
  ∧ (IndexB.resolveTodayMarket (some m) bets ws now).statusAfter
      = some Status.RESOLVED
  ∧ (Part001.resolveTodayMarket m bets ws now).1.status = Status.RESOLVED
  ∧ (m.status = Status.RESOLVED →
      Part000.resolveTodayMarket (some m) bets ws now
        = ResolveResult.alreadyResolved m.id)
  ∧ (m.status ≠ Status.RESOLVED →
      (Part000.resolveTodayMarket (some m) bets ws now).statusAfter
        = some Status.RESOLVED)
  ∧ (m.status ≠ Status.OPEN →
      (IndexB.getOrCreateTodayOpenMarket (some m) todayId dateStr now).status
        = Status.OPEN) := by
  refine ⟨?_, ?_, ?_, ?_, ?_, ?_, ?_, ?_, ?_⟩
  · unfold handleWebAppData
    split
    · rfl
    · split <;> rfl
  · intro h
    simp [IndexB.hardLockYesterdayMarket, h]
  · intro h
    simp [IndexB.hardLockYesterdayMarket, h]
  · simp only [IndexA.resolveTodayMarket]
    split <;> rfl
  · rfl
  · rfl
  · intro h
    simp [Part000.resolveTodayMarket, h]
  · intro h
    simp only [Part000.resolveTodayMarket]
    rw [if_neg h]
    split
    · rfl
    · split <;> rfl
  · intro h
    simp [IndexB.getOrCreateTodayOpenMarket, h]

/-- Witness for C4's amended statement: the open 70/30 market is moved
forward to LOCKED by the hard-lock step, and the LOCKED market is moved
back to OPEN by `getOrCreateTodayOpenMarket`. -/
theorem status_transitions_amended_witness :
    IndexB.hardLockYesterdayMarket (some mkt7030) 9
      = (some { mkt7030 with status := Status.LOCKED, locked_at := some 9 },
          IndexB.LockReport.locked "TSLA-2025-11-14")
  ∧ (IndexB.getOrCreateTodayOpenMarket (some mktLocked)
      "TSLA-2025-11-14" "2025-11-14" 9).status = Status.OPEN :=
  ⟨(status_transitions_amended ⟨"BET", none, none⟩ mkt7030 [] Side.UP 0 7 9
      "TSLA-2025-11-14" "2025-11-14").2.1 rfl,
    (status_transitions_amended ⟨"BET", none, none⟩ mktLocked [] Side.UP 0 7 9
      "TSLA-2025-11-14" "2025-11-14").2.2.2.2.2.2.2.2 (by decide)⟩

/-- Counterexample to C5: with `up_pool = -5` (reachable because stake
amounts are not validated) and `down_pool = 50`, resolving UP has
`winnersPool = -5 ≤ 0`, yet `part_001`'s resolver — which divides by the
winners pool unconditionally — still issues a payout write to the UP bet
(in the JS source the multiplier and payout are the corresponding IEEE
quotients), while the market does transition to RESOLVED. -/
theorem no_winners_part001_payout_write :
    winnersPool mktNeg5d50 Side.UP ≤ 0
  ∧ (Part001.resolveTodayMarket mktNeg5d50 [betUpNeg5, betDown50]
      Side.UP 9).2.2.map Prod.fst = [1]
  ∧ (Part001.resolveTodayMarket mktNeg5d50 [betUpNeg5, betDown50]
      Side.UP 9).1.status = Status.RESOLVED := by
  refine ⟨?_, ?_, rfl⟩
  · norm_num [winnersPool, mktNeg5d50, mktOpenZero]
  · simp [Part001.resolveTodayMarket, betUpNeg5, betDown50, betUp10,
      List.filter_cons]

/-- C5 as amended: when `winnersPool <= 0`, index.js's guarded resolver
writes no payout, leaves every bet row untouched and still moves the
market to RESOLVED; `part_001`'s unguarded resolver does the same
provided no recorded stake lies on the winning side, but it performs the
division unconditionally and pays any winning-side stake that is present
(possible only with non-positive recorded amounts). -/
theorem no_winners_no_payout_guarded (m : Market) (bets : List Bet)
    (ws : Side) (now : Nat) (hw : winnersPool m ws ≤ 0) :
    IndexA.resolveTodayMarket (some m) bets ws now
      = ResolveResult.settled
          { m with status := Status.RESOLVED, resolved_at := some now } bets []
  ∧ ((∀ b ∈ bets, b.side ≠ ws) →
      Part001.resolveTodayMarket m bets ws now
        = ({ m with status := Status.RESOLVED, resolved_at := some now },
            bets, [])) := by
  constructor
  · simp only [IndexA.resolveTodayMarket]
    rw [if_pos hw]
  · intro h
    simp only [Part001.resolveTodayMarket]
    rw [map_payout_id_of_no_winner _ _ _ h, filter_side_eq_nil _ _ h]
    rfl

/-- Witness for C5's amended statement: `up_pool = 0`, `down_pool = 50`,
resolving UP pays nothing in either resolver and both still mark the
market RESOLVED. -/
theorem no_winners_no_payout_guarded_witness :
    winnersPool mkt0d50 Side.UP ≤ 0
  ∧ IndexA.resolveTodayMarket (some mkt0d50) [betDown50] Side.UP 9
      = ResolveResult.settled
          { mkt0d50 with status := Status.RESOLVED, resolved_at := some 9 }
          [betDown50] []
  ∧ Part001.resolveTodayMarket mkt0d50 [betDown50] Side.UP 9
      = ({ mkt0d50 with status := Status.RESOLVED, resolved_at := some 9 },
          [betDown50], []) := by
  have hw : winnersPool mkt0d50 Side.UP ≤ 0 := by
    norm_num [winnersPool, mkt0d50, mktOpenZero]
  have h := no_winners_no_payout_guarded mkt0d50 [betDown50] Side.UP 9 hw
  exact ⟨hw, h.1, h.2 (by decide)⟩

/-- C8: the scheduled roll (`/cron/daily`, first evolution): if the
previous period's market exists and is OPEN it becomes LOCKED with
`locked_at = now` (and the report says so); if it exists but is LOCKED or
RESOLVED its row is left entirely unchanged, as a no-op rather than an
error; and the current period's market is ensured to exist — left as-is
when present, created OPEN with zero pools when absent. -/
theorem cron_roll_behavior (y t : Option Market) (todayId todayDate : String)
    (now : Nat) (price : Option ℚ) :
    (∀ m, y = some m → m.status = Status.OPEN →
        (IndexA.cronDaily y t todayId todayDate now price).1
            = some { m with status := Status.LOCKED, locked_at := some now }
      ∧ (IndexA.cronDaily y t todayId todayDate now price).2.2.lockedYesterday
            = true)
  ∧ (∀ m, y = some m → m.status ≠ Status.OPEN →
        (IndexA.cronDaily y t todayId todayDate now price).1 = some m
      ∧ (IndexA.cronDaily y t todayId todayDate now price).2.2.lockedYesterday
            = false)
  ∧ (t = none →
        (IndexA.cronDaily y t todayId todayDate now price).2.1
            = some (IndexA.freshTodayMarket todayId todayDate now price)
      ∧ (IndexA.cronDaily y t todayId todayDate now price).2.2.createdToday
            = true)
  ∧ (∀ m, t = some m →
        (IndexA.cronDaily y t todayId todayDate now price).2.1 = some m
      ∧ (IndexA.cronDaily y t todayId todayDate now price).2.2.createdToday
            = false) := by
  refine ⟨?_, ?_, ?_, ?_⟩
  · rintro m rfl hm
    constructor <;> simp [IndexA.cronDaily, hm]
  · rintro m rfl hm
    constructor <;> simp [IndexA.cronDaily, hm]
  · rintro rfl
    constructor <;> simp [IndexA.cronDaily]
  · rintro m rfl
    constructor <;> simp [IndexA.cronDaily]

/-- Witness for C8: yesterday's market is the open 70/30 one and today's
is absent — the roll locks yesterday's row at `now = 9` and creates
today's market open with zero pools. -/
theorem cron_roll_behavior_witness :
    (IndexA.cronDaily (some mkt7030) none "TSLA-2025-11-15" "2025-11-15" 9
        none).1
      = some { mkt7030 with status := Status.LOCKED, locked_at := some 9 }
  ∧ (IndexA.cronDaily (some mkt7030) none "TSLA-2025-11-15" "2025-11-15" 9
        none).2.1
      = some (IndexA.freshTodayMarket "TSLA-2025-11-15" "2025-11-15" 9 none) :=
  ⟨((cron_roll_behavior (some mkt7030) none "TSLA-2025-11-15" "2025-11-15" 9
      none).1 mkt7030 rfl rfl).1,
    ((cron_roll_behavior (some mkt7030) none "TSLA-2025-11-15" "2025-11-15" 9
      none).2.2.1 rfl).1⟩

/-- Counterexample to C9: the period function of index.js maps an
instant whose Rome civil time is 15:29 on 2025-11-14 to that same date —
not to the previous calendar date as the claimed 15:30 cutover would
require — and 15:30 maps to the same period, so no cutover boundary
exists between them. -/
theorem rome_afternoon_same_period :
    IndexA.getRomeDateStr ⟨2025, 11, 14, 15, 29⟩ = "2025-11-14"
  ∧ IndexA.getRomeDateStr ⟨2025, 11, 14, 15, 29⟩ ≠ "2025-11-13"
  ∧ IndexA.getRomeDateStr ⟨2025, 11, 14, 15, 30⟩ = "2025-11-14"
  ∧ IndexA.getMarketIdForRomeDate ⟨2025, 11, 14, 15, 29⟩ = "TSLA-2025-11-14" := by
  refine ⟨by decide, by decide, by decide, by decide⟩

/-- C9 as amended: period resolution is a pure function of the civil
*date* alone — index.js uses the Europe/Rome civil date of the instant
and ignores the time of day entirely (no cutover hour exists anywhere in
the source; the 15:30 boundary is only the documented invocation time of
the external cron trigger), while part_000/part_001 use the UTC civil
date from `toISOString`; the market id is the reversible composition
`"TSLA-" + date`. -/
theorem period_is_civil_date_no_cutover (t u : CivilTime) :
    IndexA.getRomeDateStr t = ymd t.year t.month t.day
  ∧ (t.year = u.year → t.month = u.month → t.day = u.day →
      IndexA.getRomeDateStr t = IndexA.getRomeDateStr u)
  ∧ IndexA.getMarketIdForRomeDate t = "TSLA-" ++ IndexA.getRomeDateStr t
  ∧ Part001.getTodayMarketId t = "TSLA-" ++ ymd t.year t.month t.day := by
  refine ⟨rfl, ?_, rfl, rfl⟩
  intro h1 h2 h3
  unfold IndexA.getRomeDateStr
  rw [h1, h2, h3]

/-- Witness for C9's amended statement: 15:29 and 23:59 Rome time on
2025-11-14 resolve to the same period. -/
theorem period_is_civil_date_no_cutover_witness :
    IndexA.getRomeDateStr ⟨2025, 11, 14, 15, 29⟩
      = IndexA.getRomeDateStr ⟨2025, 11, 14, 23, 59⟩ :=
  (period_is_civil_date_no_cutover ⟨2025, 11, 14, 15, 29⟩
    ⟨2025, 11, 14, 23, 59⟩).2.1 rfl rfl rfl

end Healyum
